import Mathlib

/-!
Shallow embedding of the messaging core of the college-portal web application:
the `Message` model (`apps/communications/models.py`), contact derivation
(`messages_view`), conversation retrieval (`api_messages`) and the send
operation (`api_send_message`) from `apps/core/views.py`, together with the
single-message view `MessageDetailView.get` from `communications/views.py`.

The persistent store is modelled as a list of message rows in insertion order
plus the user table; primary keys are assigned from a `next_id` counter, and
database timestamps are explicit structured values ordered by `dtKey`.
-/

namespace Portal

/-- A database timestamp (naive calendar date-time, as stored by the ORM). -/
structure DateTime where
  year : Nat
  month : Nat
  day : Nat
  hour : Nat
  minute : Nat
  second : Nat
deriving DecidableEq, Repr

/-- Linear key giving the time-line order of timestamps (mixed radix). -/
def dtKey (d : DateTime) : Nat :=
  d.second + 60 * (d.minute + 60 * (d.hour + 24 * (d.day + 32 * (d.month + 13 * d.year))))

/-- Field ranges of a real calendar timestamp; `dtKey` is injective on these. -/
def dtValid (d : DateTime) : Prop :=
  d.month < 13 ∧ d.day < 32 ∧ d.hour < 24 ∧ d.minute < 60 ∧ d.second < 60

instance : DecidablePred dtValid := fun d => by unfold dtValid; infer_instance

/-- Python `str.strip()` (and Django's `.strip()` in `get_full_name`): drop
whitespace from both ends of a string. -/
def pyStrip (s : String) : String :=
  ⟨((s.data.dropWhile Char.isWhitespace).reverse.dropWhile Char.isWhitespace).reverse⟩

/-- Zero-pad a field to two digits, as `%m`, `%d`, `%H`, `%M`, `%S` do. -/
def pad2 (n : Nat) : String :=
  if n < 10 then "0" ++ toString n else toString n

/-- Zero-pad the year to four digits, as `%Y` does for calendar years. -/
def pad4 (n : Nat) : String :=
  if n < 10 then "000" ++ toString n
  else if n < 100 then "00" ++ toString n
  else if n < 1000 then "0" ++ toString n
  else toString n

/-- `strftime('%Y-%m-%d %H:%M:%S')`, the timestamp format of both endpoints. -/
def fmtDateTime (d : DateTime) : String :=
  pad4 d.year ++ "-" ++ pad2 d.month ++ "-" ++ pad2 d.day ++ " " ++
    pad2 d.hour ++ ":" ++ pad2 d.minute ++ ":" ++ pad2 d.second

/-- A row of the user table (the fields the messaging core reads). -/
structure User where
  id : Nat
  username : String
  first_name : String
  last_name : String
deriving DecidableEq, Repr

/-- Django's `User.get_full_name`: first and last name joined, stripped. -/
def get_full_name (u : User) : String :=
  pyStrip (u.first_name ++ " " ++ u.last_name)

/-- `contact.get_full_name() or contact.username` (Python `or` on strings). -/
def displayName (u : User) : String :=
  if get_full_name u = "" then u.username else get_full_name u

/-- A row of the `Message` table (`apps/communications/models.py`).
`sender` and `recipient` are foreign keys stored as user ids. -/
structure Msg where
  id : Nat
  sender : Nat
  recipient : Nat
  subject : String
  content : String
  attachment : Option String
  is_read : Bool
  read_at : Option DateTime
  created_at : DateTime
  updated_at : DateTime
deriving DecidableEq, Repr

/-- The shared persistent store: user table, message table in insertion
order, and the auto-increment counter for message primary keys. -/
structure State where
  users : List User
  msgs : List Msg
  next_id : Nat
deriving DecidableEq, Repr

/-- `User.objects.get(id=uid)` as a partial lookup. -/
def findUser (users : List User) (uid : Nat) : Option User :=
  users.find? (fun u => u.id == uid)

/-- One entry of the contact list built by `messages_view`. -/
structure Contact where
  id : Nat
  name : String
  unread_count : Nat
deriving DecidableEq, Repr

/-- `messages_view` (contact derivation): ids of senders of messages to the
user and of recipients of messages from the user, materialised through the
user table, each annotated with the count of unread messages it sent. -/
def messages_view (st : State) (user : User) : List Contact :=
  let sent_to_me := (st.msgs.filter (fun m => m.recipient == user.id)).map Msg.sender
  let sent_by_me := (st.msgs.filter (fun m => m.sender == user.id)).map Msg.recipient
  let contact_ids := sent_to_me ++ sent_by_me
  let contacts := st.users.filter (fun u => decide (u.id ∈ contact_ids))
  contacts.map (fun c =>
    { id := c.id,
      name := displayName c,
      unread_count :=
        (st.msgs.filter
          (fun m => m.sender == c.id && m.recipient == user.id && m.is_read == false)).length })

/-- One serialized message of the `api_messages` JSON response. -/
structure ThreadEntry where
  id : Nat
  sender_id : Nat
  sender_name : String
  content : String
  created_at : String
  is_read : Bool
deriving DecidableEq, Repr

/-- Result of `api_messages`: the `messages` array, or an error status. -/
inductive MessagesResult where
  | success (messages : List ThreadEntry)
  | error (status : Nat) (detail : String)
deriving DecidableEq, Repr

/-- The `Q(sender=user, recipient=contact) | Q(sender=contact, recipient=user)`
filter condition of the conversation queryset. -/
def inPair (uid cid : Nat) (m : Msg) : Bool :=
  (m.sender == uid && m.recipient == cid) || (m.sender == cid && m.recipient == uid)

/-- `order_by('created_at')`: comparison of rows by creation timestamp. -/
def createdLe (a b : Msg) : Bool :=
  decide (dtKey a.created_at ≤ dtKey b.created_at)

/-- The conversation queryset: filter both directions of the pair, order by
creation timestamp (a stable sort of the store, which is in insertion
order, so rows with equal timestamps keep their primary-key order). -/
def conversationThread (msgs : List Msg) (uid cid : Nat) : List Msg :=
  (msgs.filter (inPair uid cid)).mergeSort createdLe

/-- The bulk update `filter(sender=contact, recipient=user, is_read=False)
.update(is_read=True)` applied to one row: only `is_read` is written
(`read_at` and the `auto_now` field are not touched by a queryset update). -/
def markRead (cid uid : Nat) (m : Msg) : Msg :=
  if m.sender == cid && m.recipient == uid && m.is_read == false then
    { m with is_read := true }
  else m

/-- Serialization of one message row for the `api_messages` response; the
sender's display name is resolved through the sender foreign key. -/
def serializeMsg (users : List User) (m : Msg) : ThreadEntry :=
  { id := m.id,
    sender_id := m.sender,
    sender_name := match findUser users m.sender with
      | some u => displayName u
      | none => "",
    content := m.content,
    created_at := fmtDateTime m.created_at,
    is_read := m.is_read }

/-- `api_messages` (conversation retrieval): resolve the contact (400 when the
parameter is missing or empty, 404 when no such user), mark the incoming
unread messages read, and serialize the thread.  The Django queryset for the
thread is lazy: the bulk update commits before the queryset is evaluated
during serialization, so the response is read from the updated store. -/
def api_messages (st : State) (user : User) (contact_id : Option Nat) :
    MessagesResult × State :=
  match contact_id with
  | none => (.error 400 "contact_id обязателен", st)
  | some cid =>
    match findUser st.users cid with
    | none => (.error 404 "Контакт не найден", st)
    | some contact =>
      let st' := { st with msgs := st.msgs.map (markRead contact.id user.id) }
      let messages_data :=
        (conversationThread st'.msgs user.id contact.id).map (serializeMsg st'.users)
      (.success messages_data, st')

/-- The serialized `message` object of a successful send response. -/
structure SentEntry where
  id : Nat
  sender_id : Nat
  sender_name : String
  content : String
  created_at : String
deriving DecidableEq, Repr

/-- Result of `api_send_message`: `{success: true, message: ...}` or an
error status with its detail string. -/
inductive SendResult where
  | success (message : SentEntry)
  | error (status : Nat) (detail : String)
deriving DecidableEq, Repr

/-- The request body of the send endpoint after `json.loads`: either a JSON
parse failure, or the two extracted fields (absent keys give `none`). -/
inductive ReqBody where
  | invalidJson
  | json (recipient_id : Option Nat) (content : Option String)
deriving DecidableEq, Repr

/-- Python truthiness test `not recipient_id`: `None` and `0` are falsy. -/
def ridFalsy : Option Nat → Bool
  | none => true
  | some n => n == 0

/-- `api_send_message`: parse the body, require a truthy `recipient_id` and a
non-empty stripped `content` (400 otherwise), resolve the recipient (404 when
absent), then insert the row with `is_read=False`, `read_at=NULL` and the
store clock `now` as `created_at`, and serialize it back. -/
def api_send_message (st : State) (user : User) (body : ReqBody)
    (now : DateTime) : SendResult × State :=
  match body with
  | .invalidJson => (.error 400 "Неверный JSON", st)
  | .json recipient_id rawContent =>
    let content := pyStrip (rawContent.getD "")
    if ridFalsy recipient_id || content == "" then
      (.error 400 "recipient_id и content обязательны", st)
    else
      match findUser st.users (recipient_id.getD 0) with
      | none => (.error 404 "Получатель не найден", st)
      | some recipient =>
        let message : Msg :=
          { id := st.next_id,
            sender := user.id,
            recipient := recipient.id,
            subject := "",
            content := content,
            attachment := none,
            is_read := false,
            read_at := none,
            created_at := now,
            updated_at := now }
        let st' := { st with msgs := st.msgs ++ [message], next_id := st.next_id + 1 }
        (.success
          { id := message.id,
            sender_id := user.id,
            sender_name := displayName user,
            content := message.content,
            created_at := fmtDateTime message.created_at },
         st')

/-- `MessageDetailView.get` (`communications/views.py`): fetch a message by
primary key; when the viewer is its recipient and it is unread, set
`is_read`, `read_at = now` and save (`auto_now` refreshes `updated_at`). -/
def message_detail_get (st : State) (user : User) (mid : Nat)
    (now : DateTime) : State × Option Msg :=
  match st.msgs.find? (fun m => m.id == mid) with
  | none => (st, none)
  | some m =>
    if m.recipient == user.id && !m.is_read then
      let m' := { m with is_read := true, read_at := some now, updated_at := now }
      ({ st with msgs := st.msgs.map (fun x => if x.id == mid then m' else x) }, some m')
    else (st, some m)

/-- The documented relationship between the read flag and the read
timestamp: `read_at` is null exactly on unread messages. -/
def readInvariant (m : Msg) : Prop :=
  m.read_at = none ↔ m.is_read = false

/-- Well-formedness of a store reachable through the ORM: primary keys are
assigned in increasing insertion order and below the counter, foreign keys
resolve in the user table, and creation timestamps are real calendar values. -/
structure WF (st : State) : Prop where
  msgs_mono : st.msgs.Pairwise (fun a b => a.id < b.id)
  msgs_lt_next : ∀ m ∈ st.msgs, m.id < st.next_id
  fk_sender : ∀ m ∈ st.msgs, ∃ u ∈ st.users, u.id = m.sender
  fk_recipient : ∀ m ∈ st.msgs, ∃ u ∈ st.users, u.id = m.recipient
  created_valid : ∀ m ∈ st.msgs, dtValid m.created_at

/-! ### Concrete fixtures used by witnesses and counterexamples -/

def d0 : DateTime := ⟨2025, 12, 28, 15, 30, 45⟩

def d1 : DateTime := ⟨2025, 12, 28, 15, 30, 46⟩

def alice : User := ⟨1, "alice", "Alice", "Ivanova"⟩

def bob : User := ⟨2, "bob", "", ""⟩

def m1 : Msg := ⟨1, 2, 1, "", "hi", none, false, none, d0, d0⟩

/-- Store with one unread message from `bob` to `alice`. -/
def st0 : State := ⟨[alice, bob], [m1], 2⟩

/-- Store with the two users and no messages yet. -/
def stAB : State := ⟨[alice, bob], [], 1⟩

/-- Store with one unread self-message of `alice`. -/
def stSelf : State := ⟨[alice], [⟨1, 1, 1, "", "note", none, false, none, d0, d0⟩], 2⟩

/-! ### Basic lemmas about the operations -/

theorem findUser_id {users : List User} {uid : Nat} {u : User}
    (h : findUser users uid = some u) : u.id = uid := by
  unfold findUser at h
  have := List.find?_some h
  simpa using this

theorem findUser_mem {users : List User} {uid : Nat} {u : User}
    (h : findUser users uid = some u) : u ∈ users := by
  unfold findUser at h
  exact List.mem_of_find?_eq_some h

theorem markRead_id (c u : Nat) (m : Msg) : (markRead c u m).id = m.id := by
  unfold markRead; split <;> rfl

theorem markRead_sender (c u : Nat) (m : Msg) : (markRead c u m).sender = m.sender := by
  unfold markRead; split <;> rfl

theorem markRead_recipient (c u : Nat) (m : Msg) :
    (markRead c u m).recipient = m.recipient := by
  unfold markRead; split <;> rfl

theorem markRead_content (c u : Nat) (m : Msg) : (markRead c u m).content = m.content := by
  unfold markRead; split <;> rfl

theorem markRead_created_at (c u : Nat) (m : Msg) :
    (markRead c u m).created_at = m.created_at := by
  unfold markRead; split <;> rfl

theorem markRead_read_at (c u : Nat) (m : Msg) :
    (markRead c u m).read_at = m.read_at := by
  unfold markRead; split <;> rfl

theorem markRead_subject (c u : Nat) (m : Msg) :
    (markRead c u m).subject = m.subject := by
  unfold markRead; split <;> rfl

theorem markRead_attachment (c u : Nat) (m : Msg) :
    (markRead c u m).attachment = m.attachment := by
  unfold markRead; split <;> rfl

theorem markRead_updated_at (c u : Nat) (m : Msg) :
    (markRead c u m).updated_at = m.updated_at := by
  unfold markRead; split <;> rfl

/-- A row not selected by the bulk update is returned unchanged. -/
theorem markRead_eq_of_not_selected {c u : Nat} {m : Msg}
    (h : ¬ (m.sender = c ∧ m.recipient = u ∧ m.is_read = false)) :
    markRead c u m = m := by
  unfold markRead
  split
  · next hsel =>
    simp only [Bool.and_eq_true, beq_iff_eq] at hsel
    exact absurd ⟨hsel.1.1, hsel.1.2, hsel.2⟩ h
  · rfl

/-- The bulk update is idempotent on each row. -/
theorem markRead_idem (c u : Nat) (m : Msg) :
    markRead c u (markRead c u m) = markRead c u m := by
  unfold markRead
  split <;> simp

/-- After the bulk update, every incoming row of the pair is read. -/
theorem markRead_all_read {l : List Msg} {c u : Nat} :
    ∀ m ∈ l.map (markRead c u), m.sender = c → m.recipient = u → m.is_read = true := by
  intro m hm hs hr
  rcases List.mem_map.mp hm with ⟨m0, _, rfl⟩
  by_cases hsel : (m0.sender == c && m0.recipient == u && m0.is_read == false) = true
  · show (markRead c u m0).is_read = true
    unfold markRead
    rw [if_pos hsel]
  · have hm0 : markRead c u m0 = m0 := by unfold markRead; rw [if_neg hsel]
    rw [hm0] at hs hr ⊢
    have hn : ¬ (m0.sender = c ∧ m0.recipient = u ∧ m0.is_read = false) := by
      intro hand
      exact hsel (by simp [hand.1, hand.2.1, hand.2.2])
    cases hb : m0.is_read with
    | false => exact absurd ⟨hs, hr, hb⟩ hn
    | true => rfl

/-- Reduction of `api_messages` when the contact resolves. -/
theorem api_messages_success (st : State) (user : User) {cid : Nat} {contact : User}
    (hfind : findUser st.users cid = some contact) :
    api_messages st user (some cid) =
      (.success
        ((conversationThread (st.msgs.map (markRead contact.id user.id))
            user.id contact.id).map (serializeMsg st.users)),
       { st with msgs := st.msgs.map (markRead contact.id user.id) }) := by
  simp [api_messages, hfind]

/-- Reduction of `api_send_message` when validation passes. -/
theorem api_send_message_success {st : State} (user : User) {k : Nat}
    {c : Option String} {recipient : User} (now : DateTime) (hk : k ≠ 0)
    (hc : pyStrip (c.getD "") ≠ "") (hfind : findUser st.users k = some recipient) :
    api_send_message st user (.json (some k) c) now =
      (.success
        { id := st.next_id, sender_id := user.id, sender_name := displayName user,
          content := pyStrip (c.getD ""), created_at := fmtDateTime now },
       { users := st.users,
         msgs := st.msgs ++
           [{ id := st.next_id, sender := user.id, recipient := recipient.id,
              subject := "", content := pyStrip (c.getD ""), attachment := none,
              is_read := false, read_at := none, created_at := now,
              updated_at := now }],
         next_id := st.next_id + 1 }) := by
  have h1 : ridFalsy (some k) = false := by simp [ridFalsy, hk]
  have h2 : (pyStrip (c.getD "") == "") = false := beq_eq_false_iff_ne.mpr hc
  simp [api_send_message, h1, h2, hfind]

/-! ### Claims about the send operation -/

/-- C4: Send Operation fails with 400 when the recipient identifier is
missing/empty or the content is empty after trimming, and with 404 when the
recipient does not exist; in every failure case the store is unchanged, so
no message row is persisted. -/
theorem c4_send_validation (st : State) (user : User) (now : DateTime) :
    (∀ rid c, ridFalsy rid = true →
      api_send_message st user (.json rid c) now =
        (.error 400 "recipient_id и content обязательны", st)) ∧
    (∀ rid c, pyStrip (c.getD "") = "" →
      api_send_message st user (.json rid c) now =
        (.error 400 "recipient_id и content обязательны", st)) ∧
    (∀ k c, k ≠ 0 → pyStrip (c.getD "") ≠ "" → findUser st.users k = none →
      api_send_message st user (.json (some k) c) now =
        (.error 404 "Получатель не найден", st)) := by
  refine ⟨?_, ?_, ?_⟩
  · intro rid c h
    simp [api_send_message, h]
  · intro rid c h
    simp [api_send_message, h]
  · intro k c hk hc hfind
    have h1 : ridFalsy (some k) = false := by simp [ridFalsy, hk]
    have h2 : (pyStrip (c.getD "") == "") = false := beq_eq_false_iff_ne.mpr hc
    simp [api_send_message, h1, h2, hfind]

/-- Witness for C4 at concrete inputs: missing recipient, blank content, and
an unknown recipient id, all rejected with the store unchanged. -/
theorem c4_send_validation_witness :
    (api_send_message st0 alice (.json none (some "hello")) d1 =
      (.error 400 "recipient_id и content обязательны", st0)) ∧
    (api_send_message st0 alice (.json (some 2) (some "   ")) d1 =
      (.error 400 "recipient_id и content обязательны", st0)) ∧
    (api_send_message st0 alice (.json (some 99) (some "hello")) d1 =
      (.error 404 "Получатель не найден", st0)) :=
  ⟨(c4_send_validation st0 alice d1).1 none (some "hello") (by decide),
   (c4_send_validation st0 alice d1).2.1 (some 2) (some "   ") (by decide),
   (c4_send_validation st0 alice d1).2.2 99 (some "hello") (by decide) (by decide)
     (by decide)⟩

/-- C7: on a successful send, the persisted row has `is_read = false` and
`read_at = null`, and the response is `{success: true, message: {id,
sender_id, sender_name, content, created_at}}` with the assigned id and the
store-assigned creation timestamp in `YYYY-MM-DD HH:MM:SS` format. -/
theorem c7_send_success (st : State) (user : User) (k : Nat) (c : Option String)
    (recipient : User) (now : DateTime) (hk : k ≠ 0)
    (hc : pyStrip (c.getD "") ≠ "") (hfind : findUser st.users k = some recipient) :
    (api_send_message st user (.json (some k) c) now).1 =
      .success
        { id := st.next_id, sender_id := user.id, sender_name := displayName user,
          content := pyStrip (c.getD ""), created_at := fmtDateTime now } ∧
    (api_send_message st user (.json (some k) c) now).2.msgs =
      st.msgs ++
        [{ id := st.next_id, sender := user.id, recipient := recipient.id,
           subject := "", content := pyStrip (c.getD ""), attachment := none,
           is_read := false, read_at := none, created_at := now,
           updated_at := now }] ∧
    (api_send_message st user (.json (some k) c) now).2.next_id =
      st.next_id + 1 := by
  refine ⟨?_, ?_, ?_⟩ <;> rw [api_send_message_success user now hk hc hfind]

/-- Witness for C7: `alice` sends "hello" to `bob`; the row is appended with
`is_read = false` and `read_at = null` and the response carries the assigned
id and formatted store timestamp. -/
theorem c7_send_success_witness :
    (api_send_message st0 alice (.json (some 2) (some "hello")) d1).1 =
      .success
        { id := st0.next_id, sender_id := alice.id,
          sender_name := displayName alice,
          content := pyStrip ((some "hello").getD ""),
          created_at := fmtDateTime d1 } ∧
    (api_send_message st0 alice (.json (some 2) (some "hello")) d1).2.msgs =
      st0.msgs ++
        [{ id := st0.next_id, sender := alice.id, recipient := bob.id,
           subject := "", content := pyStrip ((some "hello").getD ""),
           attachment := none, is_read := false, read_at := none,
           created_at := d1, updated_at := d1 }] ∧
    (api_send_message st0 alice (.json (some 2) (some "hello")) d1).2.next_id =
      st0.next_id + 1 :=
  c7_send_success st0 alice 2 (some "hello") bob d1 (by decide) (by decide)
    (by decide)

/-- C9: self-messages are allowed — a send whose recipient identifier is the
sender's own identifier passes validation and persists a row with
`sender = recipient`. -/
theorem c9_self_message (st : State) (user : User) (c : Option String)
    (r : User) (now : DateTime) (h0 : user.id ≠ 0)
    (hc : pyStrip (c.getD "") ≠ "") (hfind : findUser st.users user.id = some r) :
    (api_send_message st user (.json (some user.id) c) now).1 =
      .success
        { id := st.next_id, sender_id := user.id, sender_name := displayName user,
          content := pyStrip (c.getD ""), created_at := fmtDateTime now } ∧
    (api_send_message st user (.json (some user.id) c) now).2.msgs =
      st.msgs ++
        [{ id := st.next_id, sender := user.id, recipient := r.id,
           subject := "", content := pyStrip (c.getD ""), attachment := none,
           is_read := false, read_at := none, created_at := now,
           updated_at := now }] ∧
    r.id = user.id := by
  refine ⟨?_, ?_, findUser_id hfind⟩ <;> rw [api_send_message_success user now h0 hc hfind]

/-- Witness for C9: `alice` messages herself; the row is persisted with
sender and recipient both equal to her id. -/
theorem c9_self_message_witness :
    (api_send_message st0 alice (.json (some alice.id) (some "memo")) d1).1 =
      .success
        { id := st0.next_id, sender_id := alice.id,
          sender_name := displayName alice,
          content := pyStrip ((some "memo").getD ""),
          created_at := fmtDateTime d1 } ∧
    (api_send_message st0 alice (.json (some alice.id) (some "memo")) d1).2.msgs =
      st0.msgs ++
        [{ id := st0.next_id, sender := alice.id, recipient := alice.id,
           subject := "", content := pyStrip ((some "memo").getD ""),
           attachment := none, is_read := false, read_at := none,
           created_at := d1, updated_at := d1 }] ∧
    alice.id = alice.id :=
  c9_self_message st0 alice (some "memo") alice d1 (by decide) (by decide)
    (by decide)

/-! ### Ordering of the conversation thread -/

theorem createdLe_trans : ∀ a b c : Msg, createdLe a b → createdLe b c → createdLe a c := by
  intro a b c
  simp only [createdLe, decide_eq_true_eq]
  omega

theorem createdLe_total : ∀ a b : Msg, createdLe a b || createdLe b a := by
  intro a b
  simp only [createdLe, Bool.or_eq_true, decide_eq_true_eq]
  omega

/-- `dtKey` distinguishes distinct real calendar timestamps. -/
theorem dtKey_inj {a b : DateTime} (ha : dtValid a) (hb : dtValid b)
    (h : dtKey a = dtKey b) : a = b := by
  cases a
  cases b
  simp only [dtValid] at ha hb
  simp only [dtKey] at h
  simp only [DateTime.mk.injEq]
  omega

/-- In a list with strictly increasing ids, any two members with increasing
ids form an ordered-pair sublist. -/
theorem pair_sublist_of_id_lt {l : List Msg}
    (h : l.Pairwise (fun a b => a.id < b.id)) {a b : Msg}
    (ha : a ∈ l) (hb : b ∈ l) (hab : a.id < b.id) : List.Sublist [a, b] l := by
  induction l with
  | nil => cases ha
  | cons x t ih =>
    rcases List.pairwise_cons.mp h with ⟨hx, ht⟩
    rcases List.mem_cons.mp ha with rfl | ha'
    · rcases List.mem_cons.mp hb with rfl | hb'
      · exact absurd hab (Nat.lt_irrefl _)
      · exact (List.singleton_sublist.mpr hb').cons₂ a
    · rcases List.mem_cons.mp hb with rfl | hb'
      · exact absurd (hx a ha') (by omega)
      · exact (ih ht ha' hb').cons x

/-- A duplicate-free list cannot contain the same unordered pair as a
sublist in both orders. -/
theorem eq_of_pair_sublist_of_nodup {α : Type} {l : List α} (hnd : l.Nodup)
    {a b : α} (h1 : List.Sublist [a, b] l) (h2 : List.Sublist [b, a] l) : a = b := by
  induction l with
  | nil => cases h1
  | cons x t ih =>
    rcases List.nodup_cons.mp hnd with ⟨hx, hnt⟩
    cases h1 with
    | cons _ h1' =>
      cases h2 with
      | cons _ h2' => exact ih hnt h1' h2'
      | cons₂ h2' =>
        exact absurd (h1'.subset (by simp)) hx
    | cons₂ h1' =>
      cases h2 with
      | cons _ h2' =>
        exact absurd (h2'.subset (by simp)) hx
      | cons₂ h2' => rfl

/-- Stable sort of an id-increasing list by creation timestamp: the result is
pairwise ordered by timestamp with the id as tie-break. -/
theorem mergeSort_createdLe_pairwise {l : List Msg}
    (hmono : l.Pairwise (fun a b => a.id < b.id)) :
    (l.mergeSort createdLe).Pairwise (fun a b =>
      dtKey a.created_at < dtKey b.created_at ∨
        (dtKey a.created_at = dtKey b.created_at ∧ a.id < b.id)) := by
  have hsorted := List.sorted_mergeSort createdLe_trans createdLe_total l
  have hperm : List.Perm (l.mergeSort createdLe) l := List.mergeSort_perm l createdLe
  have hndl : l.Nodup := hmono.imp (fun h => by intro he; subst he; omega)
  have hnd : (l.mergeSort createdLe).Nodup := (hperm.nodup_iff).mpr hndl
  rw [List.pairwise_iff_forall_sublist]
  intro a b hsub
  have hle : createdLe a b :=
    List.pairwise_iff_forall_sublist.mp hsorted hsub
  rw [createdLe, decide_eq_true_eq] at hle
  rcases Nat.lt_or_ge (dtKey a.created_at) (dtKey b.created_at) with hlt | hge
  · exact Or.inl hlt
  · have hkey : dtKey a.created_at = dtKey b.created_at := Nat.le_antisymm hle hge
    refine Or.inr ⟨hkey, ?_⟩
    have ha : a ∈ l := List.mem_mergeSort.mp (hsub.subset (by simp))
    have hb : b ∈ l := List.mem_mergeSort.mp (hsub.subset (by simp))
    have hne : a ≠ b := List.pairwise_iff_forall_sublist.mp hnd hsub
    have hidne : a.id ≠ b.id := by
      have hsym : Symmetric (fun m m' : Msg => m.id ≠ m'.id) := by
        intro x y hxy
        exact fun he => hxy he.symm
      exact (hmono.imp (fun h => Nat.ne_of_lt h)).forall hsym ha hb hne
    rcases Nat.lt_or_ge a.id b.id with hid | hid
    · exact hid
    · exfalso
      have hba : b.id < a.id := Nat.lt_of_le_of_ne hid (fun he => hidne he.symm)
      have hsubl : List.Sublist [b, a] l := pair_sublist_of_id_lt hmono hb ha hba
      have hba_le : createdLe b a := by
        rw [createdLe, decide_eq_true_eq, hkey]
      have hsubm : List.Sublist [b, a] (l.mergeSort createdLe) :=
        List.pair_sublist_mergeSort createdLe_trans createdLe_total hba_le hsubl
      exact hne (eq_of_pair_sublist_of_nodup hnd hsub hsubm)

/-- C3: a successful conversation retrieval serializes exactly the thread of
the pair — every stored message between the two users in either direction and
no others — ordered by creation timestamp ascending with the assigned
sequential identifier as tie-break, so the order is deterministic. -/
theorem c3_thread_ordering (st : State) (user : User) (cid : Nat) (contact : User)
    (hwf : WF st) (hfind : findUser st.users cid = some contact) :
    (api_messages st user (some cid)).1 =
      .success ((conversationThread ((api_messages st user (some cid)).2).msgs
        user.id cid).map (serializeMsg st.users)) ∧
    (∀ m, m ∈ conversationThread ((api_messages st user (some cid)).2).msgs user.id cid ↔
      (m ∈ ((api_messages st user (some cid)).2).msgs ∧
        ((m.sender = user.id ∧ m.recipient = cid) ∨
         (m.sender = cid ∧ m.recipient = user.id)))) ∧
    (conversationThread ((api_messages st user (some cid)).2).msgs user.id cid).Pairwise
      (fun a b => dtKey a.created_at < dtKey b.created_at ∨
        (a.created_at = b.created_at ∧ a.id < b.id)) := by
  obtain rfl : contact.id = cid := findUser_id hfind
  have hr := api_messages_success _ user hfind
  refine ⟨?_, ?_, ?_⟩
  · rw [hr]
  · intro m
    rw [hr]
    show m ∈ conversationThread (st.msgs.map (markRead contact.id user.id))
        user.id contact.id ↔ _
    unfold conversationThread
    rw [List.mem_mergeSort, List.mem_filter]
    simp [inPair]
  · rw [hr]
    show (conversationThread (st.msgs.map (markRead contact.id user.id))
        user.id contact.id).Pairwise _
    unfold conversationThread
    have hmono' : ((st.msgs.map (markRead contact.id user.id)).filter
        (inPair user.id contact.id)).Pairwise (fun a b => a.id < b.id) := by
      apply List.Pairwise.sublist (List.filter_sublist _)
      rw [List.pairwise_map]
      exact hwf.msgs_mono.imp (fun h => by simpa [markRead_id] using h)
    have hvalid : ∀ m ∈ (st.msgs.map (markRead contact.id user.id)).filter
        (inPair user.id contact.id), dtValid m.created_at := by
      intro m hm
      rcases List.mem_map.mp ((List.filter_sublist _).subset hm) with ⟨m0, hm0, rfl⟩
      rw [markRead_created_at]
      exact hwf.created_valid m0 hm0
    refine List.Pairwise.imp_of_mem ?_ (mergeSort_createdLe_pairwise hmono')
    intro a b ha hb hab
    rcases hab with h | ⟨hk, hid⟩
    · exact Or.inl h
    · exact Or.inr ⟨dtKey_inj (hvalid a (List.mem_mergeSort.mp ha))
        (hvalid b (List.mem_mergeSort.mp hb)) hk, hid⟩

/-- Witness for C3: the response for the `alice`–`bob` thread is the
serialized ordered thread. -/
theorem c3_thread_ordering_witness :
    (api_messages st0 alice (some 2)).1 =
      .success ((conversationThread ((api_messages st0 alice (some 2)).2).msgs
        alice.id 2).map (serializeMsg st0.users)) :=
  (c3_thread_ordering st0 alice 2 bob
    ⟨by decide, by decide, by decide, by decide, by decide⟩ (by decide)).1

/-! ### Claims about mark-as-read and contact derivation -/

/-- If every incoming message of the pair is read, contact derivation reports
an unread count of zero for that contact. -/
theorem messages_view_unread_zero {st : State} {user : User} {cid : Nat}
    (h : ∀ m ∈ st.msgs, m.sender = cid → m.recipient = user.id → m.is_read = true) :
    ∀ e ∈ messages_view st user, e.id = cid → e.unread_count = 0 := by
  intro e he heid
  simp only [messages_view] at he
  rcases List.mem_map.mp he with ⟨c, hc, rfl⟩
  show (st.msgs.filter
    (fun m => m.sender == c.id && m.recipient == user.id && m.is_read == false)).length = 0
  rw [List.length_eq_zero, List.filter_eq_nil_iff]
  intro m hm hp
  simp only [Bool.and_eq_true, beq_iff_eq] at hp
  have hcid : c.id = cid := heid
  have := h m hm (hp.1.1.trans hcid) hp.1.2
  rw [this] at hp
  exact absurd hp.2 (by simp)

/-- C1 (amended): a successful conversation retrieval marks every stored
incoming message of the pair read before returning, the mutation is visible
to a subsequent contact derivation (unread count 0), and nothing else
changes: users and the id counter are untouched, every message keeps every
field except possibly `is_read`, rows outside the affected set are unchanged,
and outgoing messages keep their read-state whenever `U ≠ C`. -/
theorem c1_mark_read_frame (st : State) (user : User) (cid : Nat) (contact : User)
    (hfind : findUser st.users cid = some contact) :
    (api_messages st user (some cid)).1 =
      .success ((conversationThread ((api_messages st user (some cid)).2).msgs
        user.id cid).map (serializeMsg st.users)) ∧
    (∀ m ∈ ((api_messages st user (some cid)).2).msgs,
      m.sender = cid → m.recipient = user.id → m.is_read = true) ∧
    ((api_messages st user (some cid)).2).msgs.countP
      (fun m => m.sender == cid && m.recipient == user.id && m.is_read == false) = 0 ∧
    (∀ e ∈ messages_view ((api_messages st user (some cid)).2) user,
      e.id = cid → e.unread_count = 0) ∧
    ((api_messages st user (some cid)).2).users = st.users ∧
    ((api_messages st user (some cid)).2).next_id = st.next_id ∧
    List.Forall₂ (fun m m' =>
      m'.id = m.id ∧ m'.sender = m.sender ∧ m'.recipient = m.recipient ∧
      m'.subject = m.subject ∧ m'.content = m.content ∧
      m'.attachment = m.attachment ∧ m'.read_at = m.read_at ∧
      m'.created_at = m.created_at ∧ m'.updated_at = m.updated_at ∧
      (¬ (m.sender = cid ∧ m.recipient = user.id ∧ m.is_read = false) → m' = m) ∧
      (user.id ≠ cid → m.sender = user.id → m.recipient = cid →
        m'.is_read = m.is_read))
      st.msgs ((api_messages st user (some cid)).2).msgs := by
  obtain rfl : contact.id = cid := findUser_id hfind
  have hr := api_messages_success _ user hfind
  have hmark : ∀ m ∈ ((api_messages st user (some contact.id)).2).msgs,
      m.sender = contact.id → m.recipient = user.id → m.is_read = true := by
    rw [hr]
    exact markRead_all_read
  refine ⟨by rw [hr], hmark, ?_, messages_view_unread_zero hmark, by rw [hr],
    by rw [hr], ?_⟩
  · rw [List.countP_eq_zero]
    intro m hm hp
    simp only [Bool.and_eq_true, beq_iff_eq] at hp
    have := hmark m hm hp.1.1 hp.1.2
    rw [this] at hp
    exact absurd hp.2 (by simp)
  · rw [hr]
    show List.Forall₂ _ st.msgs (st.msgs.map (markRead contact.id user.id))
    rw [List.forall₂_map_right_iff, List.forall₂_same]
    intro m _
    refine ⟨markRead_id _ _ _, markRead_sender _ _ _, markRead_recipient _ _ _,
      markRead_subject _ _ _, markRead_content _ _ _, markRead_attachment _ _ _,
      markRead_read_at _ _ _, markRead_created_at _ _ _, markRead_updated_at _ _ _,
      fun hnot => markRead_eq_of_not_selected hnot, ?_⟩
    intro hne hs _
    have hm0 : markRead contact.id user.id m = m := by
      apply markRead_eq_of_not_selected
      intro hand
      exact hne (hs.symm.trans hand.1)
    rw [hm0]

/-- Counterexample to C1 as stated: in a self-conversation (U = C) the single
stored message is a message from U to C, yet the call flips its read-state,
so "messages from U to C keep their read-state" fails at this input. -/
theorem c1_counterexample :
    findUser stSelf.users 1 = some alice ∧
    stSelf.msgs.map Msg.sender = [alice.id] ∧
    stSelf.msgs.map Msg.recipient = [1] ∧
    stSelf.msgs.map Msg.is_read = [false] ∧
    ((api_messages stSelf alice (some 1)).2).msgs.map Msg.is_read = [true] := by
  decide

/-- Witness for C1: after `alice` opens the thread with `bob`, no unread
message from `bob` to `alice` remains and the user table is untouched. -/
theorem c1_mark_read_frame_witness :
    ((api_messages st0 alice (some 2)).2).msgs.countP
      (fun m => m.sender == 2 && m.recipient == alice.id && m.is_read == false) = 0 ∧
    ((api_messages st0 alice (some 2)).2).users = st0.users :=
  ⟨(c1_mark_read_frame st0 alice 2 bob (by decide)).2.2.1,
   (c1_mark_read_frame st0 alice 2 bob (by decide)).2.2.2.2.1⟩

/-- C6: conversation retrieval is idempotent on the store — a second call
with no intervening messages returns successfully and leaves the store
exactly as the first call left it, and contact derivation already reports
zero unread for that contact after the first call. -/
theorem c6_idempotent (st : State) (user : User) (cid : Nat) (contact : User)
    (hfind : findUser st.users cid = some contact) :
    (api_messages ((api_messages st user (some cid)).2) user (some cid)).2 =
      (api_messages st user (some cid)).2 ∧
    (api_messages ((api_messages st user (some cid)).2) user (some cid)).1 =
      .success ((conversationThread ((api_messages st user (some cid)).2).msgs
        user.id cid).map (serializeMsg st.users)) ∧
    (∀ e ∈ messages_view ((api_messages st user (some cid)).2) user,
      e.id = cid → e.unread_count = 0) := by
  obtain rfl : contact.id = cid := findUser_id hfind
  have hr := api_messages_success _ user hfind
  have hfind1 : findUser ((api_messages st user (some contact.id)).2).users
      contact.id = some contact := by
    rw [hr]
    exact hfind
  have hr2 := api_messages_success _ user hfind1
  have hmapidem : (((api_messages st user (some contact.id)).2).msgs).map
      (markRead contact.id user.id) = ((api_messages st user (some contact.id)).2).msgs := by
    rw [hr]
    show (st.msgs.map (markRead contact.id user.id)).map (markRead contact.id user.id) = _
    rw [List.map_map]
    exact List.map_congr_left (fun m _ => markRead_idem contact.id user.id m)
  have husers : ((api_messages st user (some contact.id)).2).users = st.users := by
    rw [hr]
  refine ⟨?_, ?_, ?_⟩
  · rw [hr2, hmapidem]
  · rw [hr2, hmapidem, husers]
  · exact messages_view_unread_zero (by rw [hr]; exact markRead_all_read)

/-- Witness for C6: the second retrieval of the `alice`–`bob` thread does not
change the store. -/
theorem c6_idempotent_witness :
    (api_messages ((api_messages st0 alice (some 2)).2) alice (some 2)).2 =
      (api_messages st0 alice (some 2)).2 :=
  (c6_idempotent st0 alice 2 bob (by decide)).1

/-- C2: contact derivation returns exactly the counterparts of the user —
every sender of a message to the user and every recipient of a message from
the user, and no others — and annotates each with the number of unread
messages it sent to the user. -/
theorem c2_contact_derivation (st : State) (user : User) (hwf : WF st) :
    (∀ c : Nat, c ∈ (messages_view st user).map Contact.id ↔
      ∃ m ∈ st.msgs, (m.recipient = user.id ∧ m.sender = c) ∨
        (m.sender = user.id ∧ m.recipient = c)) ∧
    (∀ e ∈ messages_view st user,
      e.unread_count = st.msgs.countP
        (fun m => m.sender == e.id && m.recipient == user.id && m.is_read == false)) := by
  constructor
  · intro c
    constructor
    · intro hc
      rcases List.mem_map.mp hc with ⟨e, he, rfl⟩
      simp only [messages_view] at he
      rcases List.mem_map.mp he with ⟨u, hu, rfl⟩
      rcases List.mem_filter.mp hu with ⟨_, hcont⟩
      rw [decide_eq_true_eq] at hcont
      show ∃ m ∈ st.msgs, (m.recipient = user.id ∧ m.sender = u.id) ∨
        (m.sender = user.id ∧ m.recipient = u.id)
      rcases List.mem_append.mp hcont with h1 | h2
      · rcases List.mem_map.mp h1 with ⟨m, hm, hms⟩
        rcases List.mem_filter.mp hm with ⟨hm', hrec⟩
        exact ⟨m, hm', Or.inl ⟨by simpa using hrec, hms⟩⟩
      · rcases List.mem_map.mp h2 with ⟨m, hm, hmr⟩
        rcases List.mem_filter.mp hm with ⟨hm', hsend⟩
        exact ⟨m, hm', Or.inr ⟨by simpa using hsend, hmr⟩⟩
    · rintro ⟨m, hm, hcase⟩
      have hcontact : ∃ u ∈ st.users, u.id = c := by
        rcases hcase with ⟨_, hsend⟩ | ⟨_, hrec⟩
        · rcases hwf.fk_sender m hm with ⟨u, hu, huid⟩
          exact ⟨u, hu, huid.trans hsend⟩
        · rcases hwf.fk_recipient m hm with ⟨u, hu, huid⟩
          exact ⟨u, hu, huid.trans hrec⟩
      rcases hcontact with ⟨u, hu, huid⟩
      have hin : u.id ∈
          ((st.msgs.filter (fun m => m.recipient == user.id)).map Msg.sender ++
           (st.msgs.filter (fun m => m.sender == user.id)).map Msg.recipient) := by
        rcases hcase with ⟨hrec, hsend⟩ | ⟨hsend, hrec⟩
        · refine List.mem_append.mpr (Or.inl (List.mem_map.mpr
            ⟨m, List.mem_filter.mpr ⟨hm, by simp [hrec]⟩, ?_⟩))
          rw [hsend, huid]
        · refine List.mem_append.mpr (Or.inr (List.mem_map.mpr
            ⟨m, List.mem_filter.mpr ⟨hm, by simp [hsend]⟩, ?_⟩))
          rw [hrec, huid]
      apply List.mem_map.mpr
      simp only [messages_view]
      exact ⟨_, List.mem_map.mpr
        ⟨u, List.mem_filter.mpr ⟨hu, decide_eq_true hin⟩, rfl⟩, huid⟩
  · intro e he
    simp only [messages_view] at he
    rcases List.mem_map.mp he with ⟨u, _, rfl⟩
    show (st.msgs.filter
      (fun m => m.sender == u.id && m.recipient == user.id && m.is_read == false)).length = _
    rw [List.countP_eq_length_filter]

/-- Witness for C2: `bob` (id 2) is listed among `alice`'s contacts because
of the stored message from `bob` to `alice`. -/
theorem c2_contact_derivation_witness :
    2 ∈ (messages_view st0 alice).map Contact.id :=
  ((c2_contact_derivation st0 alice
      ⟨by decide, by decide, by decide, by decide, by decide⟩).1 2).mpr
    ⟨m1, by decide, Or.inl ⟨by decide, by decide⟩⟩

/-- C10: in the response of a successful conversation retrieval, every entry
whose sender is the counterpart carries `is_read = true`, because the lazy
thread queryset is evaluated after the mark-as-read update commits. -/
theorem c10_response_incoming_read (st : State) (user : User) (cid : Nat)
    (contact : User) (entries : List ThreadEntry) (st' : State)
    (hfind : findUser st.users cid = some contact)
    (h : api_messages st user (some cid) = (.success entries, st')) :
    ∀ e ∈ entries, e.sender_id = cid → e.is_read = true := by
  obtain rfl : contact.id = cid := findUser_id hfind
  have hr := api_messages_success _ user hfind
  rw [h] at hr
  have hent : entries = (conversationThread
      (st.msgs.map (markRead contact.id user.id)) user.id contact.id).map
      (serializeMsg st.users) := by
    have := congrArg Prod.fst hr
    simpa using this
  subst hent
  intro e he hsid
  rcases List.mem_map.mp he with ⟨m, hm, rfl⟩
  have hsid' : m.sender = contact.id := hsid
  unfold conversationThread at hm
  rcases List.mem_filter.mp (List.mem_mergeSort.mp hm) with ⟨hmm, hpair⟩
  simp only [inPair, Bool.or_eq_true, Bool.and_eq_true, beq_iff_eq] at hpair
  show m.is_read = true
  rcases hpair with ⟨hsu, hrc⟩ | ⟨hsc, hru⟩
  · exact markRead_all_read m hmm hsid' (hrc.trans (hsu.symm.trans hsid').symm)
  · exact markRead_all_read m hmm hsc hru

/-- The serialized entry of the read `bob`→`alice` message. -/
def e10 : ThreadEntry := ⟨1, 2, "bob", "hi", "2025-12-28 15:30:45", true⟩

/-- Full evaluation of the retrieval of the `alice`–`bob` thread on `st0`. -/
theorem api_messages_st0_eval :
    api_messages st0 alice (some 2) =
      (.success [e10],
       ⟨[alice, bob], [⟨1, 2, 1, "", "hi", none, true, none, d0, d0⟩], 2⟩) := by
  have hfind : findUser st0.users 2 = some bob := by decide
  rw [api_messages_success st0 alice hfind]
  have h1 : List.filter (inPair alice.id bob.id)
      (st0.msgs.map (markRead bob.id alice.id)) =
      [⟨1, 2, 1, "", "hi", none, true, none, d0, d0⟩] := by decide
  unfold conversationThread
  rw [h1, List.mergeSort_singleton]
  have h2 : st0.msgs.map (markRead bob.id alice.id) =
      [⟨1, 2, 1, "", "hi", none, true, none, d0, d0⟩] := by decide
  rw [h2]
  have h3 : serializeMsg st0.users ⟨1, 2, 1, "", "hi", none, true, none, d0, d0⟩ =
      e10 := by decide
  simp [h3]
  exact ⟨by decide, by decide⟩

/-- Witness for C10: the single entry of the evaluated `st0` response is from
the counterpart and reported as read. -/
theorem c10_response_incoming_read_witness : e10.is_read = true :=
  c10_response_incoming_read st0 alice 2 bob [e10]
    ⟨[alice, bob], [⟨1, 2, 1, "", "hi", none, true, none, d0, d0⟩], 2⟩
    (by decide) api_messages_st0_eval e10 (by simp) rfl

instance : DecidablePred readInvariant := fun m => by
  unfold readInvariant
  infer_instance

/-- C5: the read-timestamp invariant (`read_at` null iff unread) holds of
fresh rows and is maintained by `MessageDetailView.get`, but the bulk
mark-as-read of `api_messages` flips `is_read` without setting `read_at`:
after retrieving the thread on `st0`, the store holds a read message with a
null read timestamp, violating the invariant. -/
theorem c5_read_at_bug :
    st0.msgs.map Msg.is_read = [false] ∧
    st0.msgs.map Msg.read_at = [none] ∧
    ((api_messages st0 alice (some 2)).2).msgs.map Msg.is_read = [true] ∧
    ((api_messages st0 alice (some 2)).2).msgs.map Msg.read_at = [none] ∧
    ¬ readInvariant ⟨1, 2, 1, "", "hi", none, true, none, d0, d0⟩ ∧
    ((api_messages st0 alice (some 2)).2).msgs =
      [⟨1, 2, 1, "", "hi", none, true, none, d0, d0⟩] ∧
    (message_detail_get st0 alice 1 d1).1.msgs =
      [⟨1, 2, 1, "", "hi", none, true, some d1, d0, d1⟩] ∧
    readInvariant ⟨1, 2, 1, "", "hi", none, true, some d1, d0, d1⟩ := by
  decide

/-- The row inserted by a successful send (what `Message.objects.create`
persists for the validated content). -/
def sentRow (st : State) (user : User) (rid : Nat) (content : String)
    (now : DateTime) : Msg :=
  ⟨st.next_id, user.id, rid, "", content, none, false, none, now, now⟩

/-- Counterexample to C8 as stated: `alice` submits content `" hi "`; the
send strips it before persisting, so the subsequent retrieval of the thread
returns content `"hi"`, not the submitted string. -/
theorem c8_counterexample :
    (api_send_message stAB alice (.json (some 2) (some " hi ")) d1).1 =
      .success { id := 1, sender_id := 1, sender_name := "Alice Ivanova",
                 content := "hi", created_at := "2025-12-28 15:30:46" } ∧
    (api_messages ((api_send_message stAB alice (.json (some 2) (some " hi ")) d1).2)
        alice (some 2)).1 =
      .success [⟨1, 1, "Alice Ivanova", "hi", "2025-12-28 15:30:46", false⟩] ∧
    ("hi" : String) ≠ " hi " := by
  refine ⟨by decide, ?_, by decide⟩
  have hst1 : (api_send_message stAB alice (.json (some 2) (some " hi ")) d1).2 =
      (⟨[alice, bob], [⟨1, 1, 2, "", "hi", none, false, none, d1, d1⟩], 2⟩ : State) := by
    decide
  rw [hst1]
  have hfind : findUser
      ((⟨[alice, bob], [⟨1, 1, 2, "", "hi", none, false, none, d1, d1⟩], 2⟩ : State)).users
      2 = some bob := by decide
  rw [api_messages_success _ alice hfind]
  unfold conversationThread
  have hf : List.filter (inPair alice.id bob.id)
      (((⟨[alice, bob], [⟨1, 1, 2, "", "hi", none, false, none, d1, d1⟩], 2⟩ :
        State)).msgs.map (markRead bob.id alice.id)) =
      [⟨1, 1, 2, "", "hi", none, false, none, d1, d1⟩] := by decide
  rw [hf, List.mergeSort_singleton]
  decide

/-- C8 (amended): round-trip — a message accepted by the send operation and
then retrieved by a conversation retrieval between the same pair appears in
the thread with the submitted sender and recipient, and with content equal to
the submitted content after trimming surrounding whitespace. -/
theorem c8_roundtrip (st : State) (user : User) (k : Nat) (c : Option String)
    (recipient : User) (now : DateTime) (hk : k ≠ 0)
    (hc : pyStrip (c.getD "") ≠ "") (hfind : findUser st.users k = some recipient) :
    recipient.id = k ∧
    markRead recipient.id user.id
        (sentRow st user recipient.id (pyStrip (c.getD "")) now) ∈
      conversationThread
        ((api_messages ((api_send_message st user (.json (some k) c) now).2)
          user (some k)).2).msgs user.id recipient.id ∧
    (markRead recipient.id user.id
      (sentRow st user recipient.id (pyStrip (c.getD "")) now)).sender = user.id ∧
    (markRead recipient.id user.id
      (sentRow st user recipient.id (pyStrip (c.getD "")) now)).recipient =
        recipient.id ∧
    (markRead recipient.id user.id
      (sentRow st user recipient.id (pyStrip (c.getD "")) now)).content =
        pyStrip (c.getD "") ∧
    serializeMsg st.users (markRead recipient.id user.id
        (sentRow st user recipient.id (pyStrip (c.getD "")) now)) ∈
      (conversationThread
        ((api_messages ((api_send_message st user (.json (some k) c) now).2)
          user (some k)).2).msgs user.id recipient.id).map
        (serializeMsg st.users) := by
  obtain rfl : recipient.id = k := findUser_id hfind
  have hsend := api_send_message_success user now hk hc hfind
  have hst1 : (api_send_message st user (.json (some recipient.id) c) now).2 =
      { users := st.users,
        msgs := st.msgs ++ [sentRow st user recipient.id (pyStrip (c.getD "")) now],
        next_id := st.next_id + 1 } := by
    rw [hsend]
    rfl
  have hfind1 : findUser
      ((api_send_message st user (.json (some recipient.id) c) now).2).users
      recipient.id = some recipient := by
    rw [hst1]
    exact hfind
  have hm := api_messages_success _ user hfind1
  have hmsgs : ((api_messages
      ((api_send_message st user (.json (some recipient.id) c) now).2)
      user (some recipient.id)).2).msgs =
      (st.msgs ++ [sentRow st user recipient.id (pyStrip (c.getD "")) now]).map
        (markRead recipient.id user.id) := by
    rw [hm, hst1]
  have hmem : markRead recipient.id user.id
      (sentRow st user recipient.id (pyStrip (c.getD "")) now) ∈
      conversationThread
        ((api_messages ((api_send_message st user (.json (some recipient.id) c) now).2)
          user (some recipient.id)).2).msgs user.id recipient.id := by
    unfold conversationThread
    apply List.mem_mergeSort.mpr
    apply List.mem_filter.mpr
    constructor
    · rw [hmsgs]
      exact List.mem_map.mpr ⟨_, List.mem_append.mpr (Or.inr (by simp)), rfl⟩
    · rw [inPair, markRead_sender, markRead_recipient]
      simp [sentRow]
  exact ⟨rfl, hmem, by rw [markRead_sender]; rfl, by rw [markRead_recipient]; rfl,
    by rw [markRead_content]; rfl, List.mem_map.mpr ⟨_, hmem, rfl⟩⟩

/-- Witness for C8: `alice` submits `" hi "` to `bob`; the persisted row,
found in the retrieved thread, carries the trimmed content. -/
theorem c8_roundtrip_witness :
    (markRead bob.id alice.id
      (sentRow stAB alice bob.id (pyStrip ((some " hi ").getD "")) d1)).content =
        pyStrip ((some " hi ").getD "") ∧
    markRead bob.id alice.id
        (sentRow stAB alice bob.id (pyStrip ((some " hi ").getD "")) d1) ∈
      conversationThread
        ((api_messages ((api_send_message stAB alice (.json (some 2) (some " hi ")) d1).2)
          alice (some 2)).2).msgs alice.id bob.id :=
  ⟨(c8_roundtrip stAB alice 2 (some " hi ") bob d1 (by decide) (by decide)
      (by decide)).2.2.2.2.1,
   (c8_roundtrip stAB alice 2 (some " hi ") bob d1 (by decide) (by decide)
      (by decide)).2.1⟩

end Portal
